import Mathlib

/-!
# Extended-Console: prefix-resolution and dispatch engine, shallow embedding

This file embeds the core of `src/src/ExtendedConsole.mjs` (the
`ExtendedConsole` class) in Lean 4 and proves the behavioural claims made
about it.

Modelling conventions:
* JavaScript runtime values are modelled by the inductive `Val`
  (strings, numbers, booleans, `null`, `undefined`, arrays).
* The external sink (`this._originalConsole`) exposes four channels
  (`console.log` / `warn` / `error` / `info`); a single sink invocation is
  recorded as a `SinkCall` (channel plus argument list).
* The configuration object is the structure `Config`; object-valued
  configuration fields (`prefix`, `customMethods`) are association lists
  keyed by method-name strings, mirroring JS own-property lookup.
* The asynchronous, fallible icon-pack import is modelled by an explicit
  `Except String IconPack` load result passed to `_initPrefix`.
* The transient suppression flag `_temporarilyDisablePrefix` is threaded
  explicitly as a `Bool`; exception propagation through the `noPrefix`
  wrapper is modelled with `Except Thrown`.
-/

namespace ExtendedConsole

/-- A JavaScript-like runtime value, as far as the engine observes it:
the engine only ever inspects whether a value is a (non-empty) string
(`_getPrefix`, line 208) or an array (`Array.isArray`, line 120). -/
inductive Val where
  | str : String → Val
  | num : Int → Val
  | bool : Bool → Val
  | null : Val
  | undefined : Val
  | arr : List Val → Val

/-- `true` exactly when the value is a JS array (`Array.isArray`). -/
def Val.isArr : Val → Bool
  | .arr _ => true
  | _ => false

/-- `true` exactly when the value is a JS string (`typeof v === 'string'`). -/
def Val.isStr : Val → Bool
  | .str _ => true
  | _ => false

/-- The four channels of the external sink (`_originalConsole.log`,
`.warn`, `.error`, `.info`). -/
inductive Channel where
  | plain
  | warning
  | error
  | informational
deriving DecidableEq

/-- One invocation of the external sink: which channel was called and
with which argument list. -/
structure SinkCall where
  channel : Channel
  args : List Val

/-- An exception raised by an inner dispatch (e.g. a throwing custom
handler), as observed while it propagates through a wrapper. -/
structure Thrown where
  msg : String

/-- The loaded icon pack: a key-value provider of strings
(`@ultimaserve/emoji-icons`), modelled as an association list. -/
def IconPack := List (String × String)

/-- The resolved per-method prefix map `this.prefix` populated by
`_initPrefix`.  Values are stored verbatim from the configuration, so
they are arbitrary `Val`s, not necessarily strings. -/
def PrefixMap := List (String × Val)

/-- The constructor configuration (`config`), lines 90–104.  Defaults
mirror the source: `usePrefix = config.usePrefix !== false`,
`useDefaultPrefixes = config.useDefaultPrefixes !== false`,
`defaultPrefixString = config.defaultPrefix || ""`,
`useIconPack` defaults to false, `customMethods` to `{}`.  `devMode`
defaults to an environment probe (`process.env.NODE_ENV`), modelled here
as an explicit boolean. -/
structure Config where
  usePrefix : Bool := true
  useDefaultPrefixes : Bool := true
  defaultPrefixString : String := ""
  prefixOverrides : List (String × Val) := []
  useIconPack : Bool := false
  devMode : Bool := false
  customMethods : List (String × Option (List Val → Val)) := []

/-- Source constant `ICON_PACK_MAP` (lines 1–11): method name → icon name. -/
def ICON_PACK_MAP : List (String × String) :=
  [("log", "pin"), ("success", "check_green"), ("warn", "warn"),
   ("error", "fail"), ("info", "info"), ("check", "success"),
   ("skip", "skip"), ("connect", "connect"), ("disconnect", "disconnect")]

/-- Source constant `DEFAULT_PREFIXES` (lines 13–21): built-in emoji
defaults (with ANSI colour escapes). -/
def DEFAULT_PREFIXES : List (String × String) :=
  [("log", ">"),
   ("success", "\x1b[32m✔\x1b[0m"),
   ("warn", "\x1b[33m⚠\x1b[0m"),
   ("error", "\x1b[31m✖\x1b[0m"),
   ("info", "\x1b[34mℹ\x1b[0m"),
   ("check", "\x1b[34m✔\x1b[0m"),
   ("skip", "\x1b[36m>>\x1b[0m")]

/-- The built-in logging method identifiers enumerated from the class
prototype by the filter in `_initPrefix` (lines 143–153) and
`overrideConsoleMethods` (lines 281–291): all prototype members except
`constructor`, `init`, `_initPrefix`, `_getPrefix`,
`overrideConsoleMethods`, `dev`, `noPrefix`. -/
def builtInMethods : List String :=
  ["log", "success", "warn", "error", "info", "check", "skip", "connect", "disconnect"]

/-- Every function-valued member of the class prototype
(`Object.getOwnPropertyNames(ExtendedConsole.prototype)`), before any
filtering.  `typeof this[m] === 'function'` holds for each of these on a
fresh instance. -/
def protoMembers : List String :=
  ["constructor", "init", "_initPrefix", "_getPrefix", "log", "success", "warn",
   "error", "info", "check", "skip", "connect", "disconnect", "dev", "noPrefix",
   "overrideConsoleMethods"]

/-- `Object.keys(config.customMethods)` (line 104): all custom method
names, callable or not. -/
def customMethodNames (cfg : Config) : List String :=
  cfg.customMethods.map Prod.fst

/-- One step of JS `Set` insertion: append the element unless already
present (a `Set` keeps the first occurrence, in insertion order). -/
def addUnique (acc : List String) (x : String) : List String :=
  if x ∈ acc then acc else acc ++ [x]

/-- `[...new Set(l)]`: deduplicate keeping first occurrences in order. -/
def dedupFirst (l : List String) : List String :=
  l.foldl addUnique []

/-- `allMethodNames = [...new Set([...builtInMethods, ...this._customMethodNames])]`
(line 156 and line 294). -/
def allMethodNames (cfg : Config) : List String :=
  dedupFirst (builtInMethods ++ customMethodNames cfg)

/-- Tier 3 of resolution (lines 184–187): the icon-pack value for `m`,
if an icon pack is loaded, `ICON_PACK_MAP` maps `m`, and the pack entry
is truthy (a non-empty string). -/
def iconFor (iconPack : Option IconPack) (m : String) : Option String :=
  match iconPack with
  | none => none
  | some pack =>
      match List.lookup m ICON_PACK_MAP with
      | none => none
      | some iconName =>
          match List.lookup iconName pack with
          | some s => if s != "" then some s else none
          | none => none

/-- The per-method body of the resolution loop in `_initPrefix`
(lines 177–196): user override verbatim when the override map has an own
entry (tier 2); else the icon-pack value (tier 3); else the built-in
default when `useDefaultPrefixes` and the default is truthy (tier 4);
else the global fallback string (tier 5). -/
def resolveOne (cfg : Config) (iconPack : Option IconPack) (m : String) : Val :=
  match List.lookup m cfg.prefixOverrides with
  | some v => v
  | none =>
      match iconFor iconPack m with
      | some s => Val.str s
      | none =>
          match List.lookup m DEFAULT_PREFIXES with
          | some d =>
              if cfg.useDefaultPrefixes && d != "" then Val.str d
              else Val.str cfg.defaultPrefixString
          | none => Val.str cfg.defaultPrefixString

/-- The warning emitted through the sink's warning channel when the
icon-pack import rejects (line 173): message plus `e.message`. -/
def iconLoadWarning (e : String) : SinkCall :=
  ⟨Channel.warning,
   [Val.str "[ExtendedConsole] Could not load @ultimaserve/emoji-icons. Skipping icon pack.",
    Val.str e]⟩

/-- Lines 167–175: the icon pack actually available to the resolution
loop — `none` unless `useIconPack` is set and the load succeeded. -/
def loadedIconPack (cfg : Config) (loadResult : Except String IconPack) : Option IconPack :=
  if cfg.useIconPack then
    match loadResult with
    | Except.ok p => some p
    | Except.error _ => none
  else none

/-- The warnings `_initPrefix` emits: exactly one icon-load warning when
prefixes are enabled, the icon pack was requested and its load rejected;
none otherwise (with `usePrefix` false the method returns before the
load is even attempted, lines 158–165). -/
def initWarnings (cfg : Config) (loadResult : Except String IconPack) : List SinkCall :=
  if cfg.usePrefix then
    if cfg.useIconPack then
      match loadResult with
      | Except.ok _ => []
      | Except.error e => [iconLoadWarning e]
    else []
  else []

/-- `_initPrefix` (lines 138–199): computes the resolved prefix map for
every registered method name, together with the sink warnings emitted
along the way.  When `usePrefix` is false every method resolves to the
empty string and all remaining tiers (including the icon-pack import)
are skipped. -/
def _initPrefix (cfg : Config) (loadResult : Except String IconPack) :
    PrefixMap × List SinkCall :=
  if cfg.usePrefix then
    ((allMethodNames cfg).map
       (fun m => (m, resolveOne cfg (loadedIconPack cfg loadResult) m)),
     initWarnings cfg loadResult)
  else
    ((allMethodNames cfg).map (fun m => (m, Val.str "")), [])

/-- `_getPrefix` (lines 201–212): the string actually prepended at
dispatch time — empty under suppression; otherwise the resolved map
value plus one trailing space when that value is a non-empty string, and
empty in every other case (empty string, non-string value, or absent
entry). -/
def _getPrefix (sup : Bool) (pm : PrefixMap) (m : String) : String :=
  if sup then ""
  else
    match List.lookup m pm with
    | some (Val.str s) => if s = "" then "" else s ++ " "
    | _ => ""

/-- The argument combination `...(prefix ? [prefix, ...args] : args)`
used by every dispatcher (e.g. lines 124, 217): a truthy (non-empty)
prefix string is prepended as one extra leading argument. -/
def dispatchArgs (p : String) (args : List Val) : List Val :=
  if p = "" then args else Val.str p :: args

/-- The shared dispatch shape: invoke the given sink channel with the
prefix-combined arguments and return whatever the sink returns
(`return this._originalConsole.<channel>(...)`). -/
def dispatchWith {ρ : Type} (sink : Channel → List Val → ρ)
    (ch : Channel) (p : String) (args : List Val) : ρ :=
  sink ch (dispatchArgs p args)

/-- Which sink channel each built-in method uses (lines 215–258):
`warn` → warning, `error` → error, `info` → informational, all others
(`log`, `success`, `check`, `skip`, `connect`, `disconnect`) → plain. -/
def builtinChannel (m : String) : Channel :=
  if m = "warn" then Channel.warning
  else if m = "error" then Channel.error
  else if m = "info" then Channel.informational
  else Channel.plain

/-- The sink invocation a built-in method performs (lines 215–258):
look up the prefix via `_getPrefix`, prepend it when non-empty, call the
method's channel. -/
def builtinDispatch (pm : PrefixMap) (sup : Bool) (m : String) (args : List Val) : SinkCall :=
  dispatchWith SinkCall.mk (builtinChannel m) (_getPrefix sup pm m) args

/-- `log(...args)` (lines 215–218). -/
def log (pm : PrefixMap) (sup : Bool) (args : List Val) : SinkCall :=
  dispatchWith SinkCall.mk Channel.plain (_getPrefix sup pm "log") args

/-- `success(...args)` (lines 220–223). -/
def success (pm : PrefixMap) (sup : Bool) (args : List Val) : SinkCall :=
  dispatchWith SinkCall.mk Channel.plain (_getPrefix sup pm "success") args

/-- `warn(...args)` (lines 225–228). -/
def warn (pm : PrefixMap) (sup : Bool) (args : List Val) : SinkCall :=
  dispatchWith SinkCall.mk Channel.warning (_getPrefix sup pm "warn") args

/-- `error(...args)` (lines 230–233). -/
def error (pm : PrefixMap) (sup : Bool) (args : List Val) : SinkCall :=
  dispatchWith SinkCall.mk Channel.error (_getPrefix sup pm "error") args

/-- `info(...args)` (lines 235–238). -/
def info (pm : PrefixMap) (sup : Bool) (args : List Val) : SinkCall :=
  dispatchWith SinkCall.mk Channel.informational (_getPrefix sup pm "info") args

/-- `check(...args)` (lines 240–243). -/
def check (pm : PrefixMap) (sup : Bool) (args : List Val) : SinkCall :=
  dispatchWith SinkCall.mk Channel.plain (_getPrefix sup pm "check") args

/-- `skip(...args)` (lines 245–248). -/
def skip (pm : PrefixMap) (sup : Bool) (args : List Val) : SinkCall :=
  dispatchWith SinkCall.mk Channel.plain (_getPrefix sup pm "skip") args

/-- `connect(...args)` (lines 250–253). -/
def connect (pm : PrefixMap) (sup : Bool) (args : List Val) : SinkCall :=
  dispatchWith SinkCall.mk Channel.plain (_getPrefix sup pm "connect") args

/-- `disconnect(...args)` (lines 255–258). -/
def disconnect (pm : PrefixMap) (sup : Bool) (args : List Val) : SinkCall :=
  dispatchWith SinkCall.mk Channel.plain (_getPrefix sup pm "disconnect") args

/-- Line 120: `Array.isArray(processedArgs) ? processedArgs : [processedArgs]` —
an array return is spread as the loggable parts, anything else becomes a
single-element list. -/
def normalizeParts : Val → List Val
  | Val.arr xs => xs
  | v => [v]

/-- The custom-method wrapper installed by the constructor
(lines 114–125): compute the prefix for the method's own name, call the
user handler with the raw call arguments, normalize its return value,
and forward everything to the sink's plain channel
(`_originalConsole.log`), whatever the method's name. -/
def customDispatch (pm : PrefixMap) (sup : Bool) (handler : List Val → Val)
    (m : String) (args : List Val) : SinkCall :=
  dispatchWith SinkCall.mk Channel.plain (_getPrefix sup pm m)
    (normalizeParts (handler args))

/-- The custom handler installed on the instance for `m`, if any: the
constructor only installs a wrapper when the configured value is
callable (line 109). -/
def installedCustom (cfg : Config) (m : String) : Option (List Val → Val) :=
  match List.lookup m cfg.customMethods with
  | some (some h) => some h
  | _ => none

/-- The names of the custom methods actually installed on the instance
(the callable entries of `customMethods`). -/
def installedCustomNames (cfg : Config) : List String :=
  (cfg.customMethods.filter (fun p => p.2.isSome)).map Prod.fst

/-- The warning of line 127 for a non-callable `customMethods` entry. -/
def nonCallableWarning (m : String) : SinkCall :=
  ⟨Channel.warning,
   [Val.str ("[ExtendedConsole] Custom method \x27" ++ m ++
             "\x27 is not a function and will be ignored.")]⟩

/-- The not-a-function warnings the constructor emits (line 127), one
per non-callable `customMethods` entry, in configuration order.  (The
separate might-overwrite warnings of line 111, emitted for callable
entries that shadow an existing member, are orthogonal to the claims and
not modelled here.) -/
def constructorWarnings (cfg : Config) : List SinkCall :=
  (cfg.customMethods.filter (fun p => p.2.isNone)).map (fun p => nonCallableWarning p.1)

/-- The method names `overrideConsoleMethods` binds onto the global
`console` object (lines 296–303): every registered name for which
`typeof this[method] === 'function'` — i.e. every prototype member plus
every installed custom method.  Names failing the check only draw a
warning and are not bound. -/
def overrideBoundMethods (cfg : Config) : List String :=
  (allMethodNames cfg).filter
    (fun m => decide (m ∈ protoMembers) || decide (m ∈ installedCustomNames cfg))

/-- Calling method `m` directly on the engine instance: an installed
custom wrapper (an own property) shadows the prototype built-in of the
same name; an unregistered name performs no sink invocation. -/
def surfaceCall (cfg : Config) (pm : PrefixMap) (sup : Bool)
    (m : String) (args : List Val) : Option SinkCall :=
  match installedCustom cfg m with
  | some h => some (customDispatch pm sup h m args)
  | none =>
      if m ∈ builtInMethods then some (builtinDispatch pm sup m args)
      else none

/-- `dev()` (lines 261–276): when `isDev` is false, a proxy whose every
member is a no-op (no sink invocation, `undefined` result); when true, a
pass-through proxy to the instance, so every call dispatches exactly as
the ungated call would. -/
def devCall (isDev : Bool) (cfg : Config) (pm : PrefixMap) (sup : Bool)
    (m : String) (args : List Val) : Option SinkCall :=
  if isDev then surfaceCall cfg pm sup m args else none

/-- The `console.noPrefix()` wrapper (lines 308–323), explicit-state:
`inner` is the underlying dispatch as a function of the suppression flag
(it may throw and may itself change the flag), `s` is the flag's value
at call time.  The wrapper saves `s`, sets the flag true, runs the inner
dispatch, and — only on normal return — writes the saved value back.
There is no try/finally in the source, so on the exception path the
assignment of line 316 is skipped and the flag keeps whatever value the
inner dispatch left it with. -/
def noPrefixCall {ρ : Type} (inner : Bool → Except Thrown ρ × Bool) (s : Bool) :
    Except Thrown ρ × Bool :=
  match inner true with
  | (Except.ok result, _) => (Except.ok result, s)
  | (Except.error e, s2) => (Except.error e, s2)

/-- A non-throwing built-in dispatch as an inner call for the `noPrefix`
wrapper: reads the suppression flag, performs its sink call, leaves the
flag unchanged. -/
def builtinInner (pm : PrefixMap) (m : String) (args : List Val) :
    Bool → Except Thrown SinkCall × Bool :=
  fun s => (Except.ok (builtinDispatch pm s m args), s)

/-- An inner dispatch that raises (e.g. a registered custom method whose
handler throws) without touching the suppression flag. -/
def throwingInner : Bool → Except Thrown SinkCall × Bool :=
  fun s => (Except.error ⟨"custom handler raised"⟩, s)

/-- A configuration with an explicit empty-string override for `log`,
a non-empty global fallback and an icon pack requested: exercises the
override tier against every lower tier. -/
def cfgEmptyOverride : Config :=
  { defaultPrefixString := "ZZ", prefixOverrides := [("log", Val.str "")],
    useIconPack := true }

/-- An icon pack that does carry a `pin` entry (the icon mapped from
`log`), so that a fall-through from the override tier would be visible. -/
def packWithPin : IconPack :=
  [("pin", "PIN")]

/-- A configuration with prefixes globally disabled. -/
def cfgNoPrefixes : Config :=
  { usePrefix := false }

/-- A configuration that requests the icon pack (whose load will be made
to fail in the witness). -/
def cfgWantsIcons : Config :=
  { useIconPack := true }

/-- A configuration declaring one non-callable custom method with a
fresh name. -/
def cfgBadCustom : Config :=
  { customMethods := [("audit", none)] }

/-- A configuration declaring a non-callable custom method whose name
collides with the built-in `log`. -/
def cfgBadCustomCollides : Config :=
  { customMethods := [("log", none)] }

/-- A configuration with a non-string (numeric) per-method override. -/
def cfgNumericOverride : Config :=
  { prefixOverrides := [("log", Val.num 5)] }

/-! ## Helper lemmas -/

/-- Membership through one JS-`Set` insertion step. -/
theorem mem_addUnique {acc : List String} {x a : String} :
    a ∈ addUnique acc x ↔ a ∈ acc ∨ a = x := by
  unfold addUnique
  by_cases h : x ∈ acc
  · simp only [h, if_true]
    constructor
    · exact Or.inl
    · rintro (ha | rfl)
      · exact ha
      · exact h
  · simp [h, List.mem_append]

/-- Membership through a fold of `Set` insertions. -/
theorem mem_foldl_addUnique (l : List String) (acc : List String) (a : String) :
    a ∈ l.foldl addUnique acc ↔ a ∈ acc ∨ a ∈ l := by
  induction l generalizing acc with
  | nil => simp
  | cons x xs ih =>
      simp only [List.foldl_cons, ih, mem_addUnique, List.mem_cons]
      tauto

/-- `[...new Set(l)]` has exactly the members of `l`. -/
theorem mem_dedupFirst {l : List String} {a : String} :
    a ∈ dedupFirst l ↔ a ∈ l := by
  unfold dedupFirst
  rw [mem_foldl_addUnique]
  simp

/-- Every built-in method name is registered, whatever the configuration. -/
theorem mem_allMethodNames_of_builtin (cfg : Config) {m : String}
    (h : m ∈ builtInMethods) : m ∈ allMethodNames cfg := by
  unfold allMethodNames
  rw [mem_dedupFirst]
  exact List.mem_append_left _ h

/-- Looking up a key in a key-tagged map of a list returns the function
applied at the key. -/
theorem lookup_map_key (l : List String) (f : String → Val) {m : String} (h : m ∈ l) :
    List.lookup m (l.map (fun x => (x, f x))) = some (f m) := by
  induction l with
  | nil => cases h
  | cons x xs ih =>
      rcases List.mem_cons.mp h with rfl | hmem
      · simp [List.lookup]
      · by_cases hx : m = x
        · subst hx
          simp [List.lookup]
        · have hbeq : (m == x) = false := beq_eq_false_iff_ne.mpr hx
          simpa [List.lookup, hbeq] using ih hmem

/-- A successful association-list lookup exhibits a member pair. -/
theorem lookup_mem {α : Type} {l : List (String × α)} {k : String} {v : α}
    (h : List.lookup k l = some v) : (k, v) ∈ l := by
  induction l with
  | nil => simp [List.lookup] at h
  | cons p ps ih =>
      obtain ⟨k', v'⟩ := p
      by_cases hk : k = k'
      · subst hk
        simp [List.lookup] at h
        subst h
        exact List.mem_cons_self _ _
      · have hbeq : (k == k') = false := beq_eq_false_iff_ne.mpr hk
        simp only [List.lookup, hbeq] at h
        exact List.mem_cons_of_mem _ (ih h)

/-- In a map whose keys are pairwise distinct (JS object own
properties), two member pairs with the same key carry the same value. -/
theorem val_eq_of_nodup_keys {α : Type} {l : List (String × α)}
    (hnd : (l.map Prod.fst).Nodup) {k : String} {v1 v2 : α}
    (h1 : (k, v1) ∈ l) (h2 : (k, v2) ∈ l) : v1 = v2 := by
  induction l with
  | nil => cases h1
  | cons p ps ih =>
      simp only [List.map_cons, List.nodup_cons] at hnd
      rcases List.mem_cons.mp h1 with he1 | hm1
      · rcases List.mem_cons.mp h2 with he2 | hm2
        · have hpair : (k, v1) = (k, v2) := he1.trans he2.symm
          injection hpair
        · exfalso
          apply hnd.1
          have hk : p.1 = k := (congrArg Prod.fst he1).symm
          rw [hk]
          simpa using List.mem_map_of_mem Prod.fst hm2
      · rcases List.mem_cons.mp h2 with he2 | hm2
        · exfalso
          apply hnd.1
          have hk : p.1 = k := (congrArg Prod.fst he2).symm
          rw [hk]
          simpa using List.mem_map_of_mem Prod.fst hm1
        · exact ih hnd.2 hm1 hm2

/-- Tier-2 hit: when prefixes are enabled and the override map has an
own entry for a registered method, the resolved map stores that entry
verbatim (whatever the icon-pack load did). -/
theorem lookup_resolved_of_override (cfg : Config) (load : Except String IconPack)
    {m : String} {v : Val} (hup : cfg.usePrefix = true)
    (hm : m ∈ allMethodNames cfg)
    (hov : List.lookup m cfg.prefixOverrides = some v) :
    List.lookup m (_initPrefix cfg load).1 = some v := by
  unfold _initPrefix
  rw [hup]
  simp only [if_true]
  rw [lookup_map_key _ _ hm]
  unfold resolveOne
  rw [hov]

/-- A string with a space appended is never the empty string. -/
theorem append_space_ne_empty (s : String) : s ++ " " ≠ "" := by
  intro h
  have hl := congrArg String.length h
  rw [String.length_append] at hl
  have h1 : " ".length = 1 := rfl
  have h0 : "".length = 0 := rfl
  omega

/-! ## Claim theorems -/

/-- C1: evaluating the `noPrefix()` wrapper at an inner dispatch that
raises, starting from suppression flag `false`: the call propagates the
exception and leaves the engine's suppression flag `true` — it is NOT
restored to its pre-call value, because the source has no try/finally
and the restoring assignment (line 316) is skipped on the exception
path.  This refutes the claim that the flag equals its prior value after
a throwing call. -/
theorem c1_flag_left_set_when_inner_throws :
    noPrefixCall throwingInner false
      = (Except.error ⟨"custom handler raised"⟩, true) := rfl

/-- C9 (suppression isolation): for two consecutive non-throwing calls
to the same built-in method where only the first goes through
`noPrefix()`, the first call's sink invocation carries the raw arguments
with no prefix inserted, the wrapper hands the suppression flag back at
its prior value, and the second call dispatches exactly as a normal
(unsuppressed) call with the normally resolved prefix. -/
theorem c9_suppression_isolation (pm : PrefixMap) (m : String)
    (args1 args2 : List Val) (s : Bool) :
    (noPrefixCall (builtinInner pm m args1) false).1
      = Except.ok ⟨builtinChannel m, args1⟩
    ∧ (noPrefixCall (builtinInner pm m args1) s).2 = s
    ∧ builtinDispatch pm (noPrefixCall (builtinInner pm m args1) false).2 m args2
      = builtinDispatch pm false m args2 :=
  ⟨rfl, rfl, rfl⟩

/-- C5 (dev gating): when `devMode` is false, every call through the
surface returned by `dev()` performs no sink invocation (the inert proxy
no-ops on every member); when `devMode` is true, every call through
`dev()` performs exactly the sink invocation of the ungated call on the
engine surface (same channel, same prefix, same arguments). -/
theorem c5_dev_gating :
    (∀ (cfg : Config) (pm : PrefixMap) (sup : Bool) (m : String) (args : List Val),
        devCall false cfg pm sup m args = none)
    ∧ (∀ (cfg : Config) (pm : PrefixMap) (sup : Bool) (m : String) (args : List Val),
        devCall true cfg pm sup m args = surfaceCall cfg pm sup m args) :=
  ⟨fun _ _ _ _ _ => rfl, fun _ _ _ _ _ => rfl⟩

/-- C6 (custom normalization): a custom method always invokes the sink's
plain channel whatever its name; the handler is called on the raw
arguments, and when it returns an array the elements become the loggable
parts in order, while any non-array return becomes a single part — in
both cases combined with the resolved prefix by the usual dispatch
rule. -/
theorem c6_custom_normalization (pm : PrefixMap) (sup : Bool)
    (handler : List Val → Val) (m : String) (args : List Val) :
    (customDispatch pm sup handler m args).channel = Channel.plain
    ∧ (∀ xs, handler args = Val.arr xs →
        (customDispatch pm sup handler m args).args
          = dispatchArgs (_getPrefix sup pm m) xs)
    ∧ ((handler args).isArr = false →
        (customDispatch pm sup handler m args).args
          = dispatchArgs (_getPrefix sup pm m) [handler args]) := by
  refine ⟨rfl, ?_, ?_⟩
  · intro xs hxs
    simp [customDispatch, dispatchWith, normalizeParts, hxs]
  · intro hna
    cases hv : handler args
    case arr xs =>
      rw [hv] at hna
      exact absurd hna (by simp [Val.isArr])
    all_goals simp [customDispatch, dispatchWith, normalizeParts, hv]

/-- Witness for C6: a handler returning the argument array logs each
element as a separate part; a handler returning a bare string logs it as
a single part. -/
theorem c6_custom_normalization_w :
    (customDispatch [] false (fun l => Val.arr l) "audit" [Val.str "x", Val.str "y"]).args
      = [Val.str "x", Val.str "y"]
    ∧ (customDispatch [] false (fun _ => Val.str "one") "audit" [Val.str "x"]).args
      = [Val.str "one"] :=
  ⟨(c6_custom_normalization [] false (fun l => Val.arr l) "audit"
      [Val.str "x", Val.str "y"]).2.1 [Val.str "x", Val.str "y"] rfl,
   (c6_custom_normalization [] false (fun _ => Val.str "one") "audit"
      [Val.str "x"]).2.2 rfl⟩

/-- C2 (override precedence): when prefixes are globally enabled and the
raw configuration's override map has an own entry for a registered
method — including an explicit empty string — the resolved map stores
that entry verbatim, whatever the icon-pack load result, the built-in
defaults, or the global fallback string. -/
theorem c2_override_verbatim (cfg : Config) (load : Except String IconPack)
    (m : String) (v : Val) (hup : cfg.usePrefix = true)
    (hm : m ∈ allMethodNames cfg)
    (hov : List.lookup m cfg.prefixOverrides = some v) :
    List.lookup m (_initPrefix cfg load).1 = some v :=
  lookup_resolved_of_override cfg load hup hm hov

/-- Witness for C2: with an explicit empty override for `log`, a
non-empty global fallback `"ZZ"` and a successfully loaded icon pack
providing `pin`, the resolved prefix for `log` is still the empty
string. -/
theorem c2_override_verbatim_w :
    cfgEmptyOverride.usePrefix = true
    ∧ "log" ∈ allMethodNames cfgEmptyOverride
    ∧ List.lookup "log" cfgEmptyOverride.prefixOverrides = some (Val.str "")
    ∧ List.lookup "log" (_initPrefix cfgEmptyOverride (Except.ok packWithPin)).1
        = some (Val.str "") :=
  ⟨rfl, by decide, rfl,
   c2_override_verbatim cfgEmptyOverride (Except.ok packWithPin) "log" (Val.str "")
     rfl (by decide) rfl⟩

/-- C3 (dispatch shape): for a dispatch whose resolved map entry is the
string `p0`, the effective prefix is `p0` (or `""` under suppression);
when it is non-empty the sink channel receives it with exactly one
trailing space prepended as one extra leading argument, otherwise the
arguments pass through unchanged; the dispatch returns exactly what the
sink returns on those arguments; and under the default configuration
`log("hi")` invokes the plain channel with `("> ", "hi")`. -/
theorem c3_dispatch_shape (pm : PrefixMap) (sup : Bool) (m : String)
    (args : List Val) (p0 : String)
    (hres : List.lookup m pm = some (Val.str p0)) :
    (builtinDispatch pm sup m args =
       ⟨builtinChannel m,
        if (if sup then "" else p0) = "" then args
        else Val.str ((if sup then "" else p0) ++ " ") :: args⟩)
    ∧ (∀ (ρ : Type) (sink : Channel → List Val → ρ),
        dispatchWith sink (builtinChannel m) (_getPrefix sup pm m) args
          = sink (builtinDispatch pm sup m args).channel
              (builtinDispatch pm sup m args).args)
    ∧ log (_initPrefix {} (Except.ok [])).1 false [Val.str "hi"]
        = ⟨Channel.plain, [Val.str "> ", Val.str "hi"]⟩ := by
  refine ⟨?_, fun ρ sink => rfl, rfl⟩
  cases sup with
  | true => simp [builtinDispatch, dispatchWith, _getPrefix, dispatchArgs]
  | false =>
      by_cases hp : p0 = ""
      · subst hp
        simp [builtinDispatch, dispatchWith, _getPrefix, hres, dispatchArgs]
      · have hne : p0 ++ " " ≠ "" := append_space_ne_empty p0
        simp [builtinDispatch, dispatchWith, _getPrefix, hres, dispatchArgs, hp, hne]

/-- Witness for C3: with resolved prefix `"W"` for `warn`, an
unsuppressed `warn("a")` invokes the warning channel with
`("W ", "a")`. -/
theorem c3_dispatch_shape_w :
    List.lookup "warn" [("warn", Val.str "W")] = some (Val.str "W")
    ∧ builtinDispatch [("warn", Val.str "W")] false "warn" [Val.str "a"]
        = ⟨Channel.warning, [Val.str "W ", Val.str "a"]⟩ :=
  ⟨rfl,
   (c3_dispatch_shape [("warn", Val.str "W")] false "warn" [Val.str "a"] "W" rfl).1⟩

/-- C4 (global disable): with `usePrefix = false` every registered
method resolves to the empty string (the remaining tiers are skipped),
and a subsequent `log("hi")` invokes the sink's plain channel with the
original argument only — no prefix argument inserted. -/
theorem c4_global_disable (cfg : Config) (load : Except String IconPack) (m : String)
    (hup : cfg.usePrefix = false) (hm : m ∈ allMethodNames cfg) :
    List.lookup m (_initPrefix cfg load).1 = some (Val.str "")
    ∧ log (_initPrefix cfg load).1 false [Val.str "hi"]
        = ⟨Channel.plain, [Val.str "hi"]⟩ := by
  have hall : ∀ m', m' ∈ allMethodNames cfg →
      List.lookup m' (_initPrefix cfg load).1 = some (Val.str "") := by
    intro m' hm'
    unfold _initPrefix
    rw [hup]
    simp only [Bool.false_eq_true, if_false]
    exact lookup_map_key _ _ hm'
  have hlog := hall "log" (mem_allMethodNames_of_builtin cfg (by decide))
  have hgp : _getPrefix false (_initPrefix cfg load).1 "log" = "" := by
    simp [_getPrefix, hlog]
  exact ⟨hall m hm, by simp [log, dispatchWith, dispatchArgs, hgp]⟩

/-- Witness for C4: with `{ usePrefix: false }`, the resolved prefix of
`warn` is `""` and `log("hi")` reaches the plain channel as `("hi")`. -/
theorem c4_global_disable_w :
    cfgNoPrefixes.usePrefix = false
    ∧ "warn" ∈ allMethodNames cfgNoPrefixes
    ∧ List.lookup "warn" (_initPrefix cfgNoPrefixes (Except.ok [])).1
        = some (Val.str "")
    ∧ log (_initPrefix cfgNoPrefixes (Except.ok [])).1 false [Val.str "hi"]
        = ⟨Channel.plain, [Val.str "hi"]⟩ :=
  ⟨rfl, by decide,
   (c4_global_disable cfgNoPrefixes (Except.ok []) "warn" rfl (by decide)).1,
   (c4_global_disable cfgNoPrefixes (Except.ok []) "warn" rfl (by decide)).2⟩

/-- C7 (icon-pack load failure): when prefixes are enabled, the icon
pack was requested and its load rejects, initialization still completes,
exactly one non-fatal warning goes to the sink's warning channel, and
the resolved prefix map is identical to the one computed when the icon
pack was never requested (every method falls through to defaults or the
global fallback). -/
theorem c7_iconpack_failure (cfg : Config) (e : String)
    (load2 : Except String IconPack)
    (hup : cfg.usePrefix = true) (hip : cfg.useIconPack = true) :
    (_initPrefix cfg (Except.error e)).2 = [iconLoadWarning e]
    ∧ (_initPrefix cfg (Except.error e)).1
        = (_initPrefix { cfg with useIconPack := false } load2).1 := by
  constructor
  · simp [_initPrefix, initWarnings, hup, hip]
  · unfold _initPrefix loadedIconPack
    rw [hup, hip]
    rfl

/-- Witness for C7: a failing load of a requested icon pack yields the
single warning and the same map as a configuration without the icon
pack. -/
theorem c7_iconpack_failure_w :
    cfgWantsIcons.usePrefix = true
    ∧ cfgWantsIcons.useIconPack = true
    ∧ (_initPrefix cfgWantsIcons (Except.error "not installed")).2
        = [iconLoadWarning "not installed"]
    ∧ (_initPrefix cfgWantsIcons (Except.error "not installed")).1
        = (_initPrefix { cfgWantsIcons with useIconPack := false }
             (Except.ok packWithPin)).1 :=
  ⟨rfl, rfl,
   (c7_iconpack_failure cfgWantsIcons "not installed" (Except.ok packWithPin)
      rfl rfl).1,
   (c7_iconpack_failure cfgWantsIcons "not installed" (Except.ok packWithPin)
      rfl rfl).2⟩

/-- C8, counterexample to the claim as stated: with the non-callable
custom entry `customMethods = { log: <non-function> }`, the identifier
`log` is nevertheless bound onto the global console by
`overrideConsoleMethods` (the prototype built-in `log` passes the
`typeof this[method] === 'function'` check), so "the identifier ... is
not bound onto the global object" fails for this entry. -/
theorem c8_nonCallable_counterexample :
    List.lookup "log" cfgBadCustomCollides.customMethods = some none
    ∧ "log" ∈ overrideBoundMethods cfgBadCustomCollides :=
  ⟨rfl, by decide⟩

/-- C8 as amended: for a non-callable `customMethods` entry whose name
does not collide with a prototype member (e.g. a built-in), the
constructor emits the non-fatal not-a-function warning, no dispatcher is
installed on the instance for that identifier, and
`overrideConsoleMethods` does not bind it onto the global object;
construction itself completes (all definitions are total). -/
theorem c8_nonCallable_ignored (cfg : Config) (m : String)
    (hnd : (cfg.customMethods.map Prod.fst).Nodup)
    (hlk : List.lookup m cfg.customMethods = some none)
    (hproto : m ∉ protoMembers) :
    nonCallableWarning m ∈ constructorWarnings cfg
    ∧ m ∉ installedCustomNames cfg
    ∧ m ∉ overrideBoundMethods cfg := by
  have hmem : (m, (none : Option (List Val → Val))) ∈ cfg.customMethods :=
    lookup_mem hlk
  have hninst : m ∉ installedCustomNames cfg := by
    intro hin
    rcases List.mem_map.mp hin with ⟨p, hpmem, hfst⟩
    rcases List.mem_filter.mp hpmem with ⟨hpin, hsome⟩
    have hp2 : (m, p.2) ∈ cfg.customMethods := by
      obtain ⟨p1, p2⟩ := p
      cases hfst
      exact hpin
    have hval := val_eq_of_nodup_keys hnd hmem hp2
    rw [← hval] at hsome
    simp at hsome
  refine ⟨?_, hninst, ?_⟩
  · unfold constructorWarnings
    have hf : (m, (none : Option (List Val → Val)))
        ∈ cfg.customMethods.filter (fun p => p.2.isNone) :=
      List.mem_filter.mpr ⟨hmem, by simp⟩
    exact List.mem_map_of_mem _ hf
  · intro hbound
    rcases List.mem_filter.mp hbound with ⟨_, hcond⟩
    simp only [Bool.or_eq_true, decide_eq_true_eq] at hcond
    rcases hcond with h | h
    · exact hproto h
    · exact hninst h

/-- Witness for C8 (amended): the non-callable entry `audit` draws the
warning, is not installed on the instance, and is not bound onto the
global console. -/
theorem c8_nonCallable_ignored_w :
    (cfgBadCustom.customMethods.map Prod.fst).Nodup
    ∧ List.lookup "audit" cfgBadCustom.customMethods = some none
    ∧ "audit" ∉ protoMembers
    ∧ nonCallableWarning "audit" ∈ constructorWarnings cfgBadCustom
    ∧ "audit" ∉ installedCustomNames cfgBadCustom
    ∧ "audit" ∉ overrideBoundMethods cfgBadCustom :=
  ⟨by decide, rfl, by decide,
   (c8_nonCallable_ignored cfgBadCustom "audit" (by decide) rfl (by decide)).1,
   (c8_nonCallable_ignored cfgBadCustom "audit" (by decide) rfl (by decide)).2.1,
   (c8_nonCallable_ignored cfgBadCustom "audit" (by decide) rfl (by decide)).2.2⟩

/-- C10 (non-string override): a non-string per-method override is
stored verbatim in the resolved map, yet dispatch behaves exactly as
with an empty prefix: `_getPrefix` yields a prefix only for non-empty
string values, so no prefix argument is inserted and the sink receives
the original arguments unchanged. -/
theorem c10_nonstring_override (cfg : Config) (load : Except String IconPack)
    (m : String) (v : Val) (args : List Val)
    (hup : cfg.usePrefix = true) (hm : m ∈ allMethodNames cfg)
    (hov : List.lookup m cfg.prefixOverrides = some v)
    (hns : v.isStr = false) :
    List.lookup m (_initPrefix cfg load).1 = some v
    ∧ _getPrefix false (_initPrefix cfg load).1 m = ""
    ∧ builtinDispatch (_initPrefix cfg load).1 false m args
        = ⟨builtinChannel m, args⟩ := by
  have hres := lookup_resolved_of_override cfg load hup hm hov
  have hgp : _getPrefix false (_initPrefix cfg load).1 m = "" := by
    unfold _getPrefix
    rw [if_neg (by simp)]
    rw [hres]
    cases v <;> simp [Val.isStr] at hns ⊢
  refine ⟨hres, hgp, ?_⟩
  simp [builtinDispatch, dispatchWith, dispatchArgs, hgp]

/-- Witness for C10: the override `{ log: 5 }` is stored verbatim, but
`log("hi")` reaches the plain channel as `("hi")` with no prefix
argument. -/
theorem c10_nonstring_override_w :
    cfgNumericOverride.usePrefix = true
    ∧ "log" ∈ allMethodNames cfgNumericOverride
    ∧ List.lookup "log" cfgNumericOverride.prefixOverrides = some (Val.num 5)
    ∧ (Val.num 5).isStr = false
    ∧ List.lookup "log" (_initPrefix cfgNumericOverride (Except.ok [])).1
        = some (Val.num 5)
    ∧ builtinDispatch (_initPrefix cfgNumericOverride (Except.ok [])).1 false "log"
        [Val.str "hi"] = ⟨Channel.plain, [Val.str "hi"]⟩ :=
  ⟨rfl, by decide, rfl, rfl,
   (c10_nonstring_override cfgNumericOverride (Except.ok []) "log" (Val.num 5)
      [Val.str "hi"] rfl (by decide) rfl rfl).1,
   (c10_nonstring_override cfgNumericOverride (Except.ok []) "log" (Val.num 5)
      [Val.str "hi"] rfl (by decide) rfl rfl).2.2⟩

end ExtendedConsole
